import Mathlib

/-!
# A verification model of the Beam BigQuery streaming-insert write path

Shallow embedding of `sdks/python/apache_beam/io/gcp/bigquery.py`:
the `BigQueryWriteFn` buffered batch writer with its retry loop
(`_flush_batch`, `_flush_all_batches`, `process`, `start_bundle`,
`_create_table_if_needed`), the fixed-sharding helpers of
`_StreamToBigQuery.expand`, and the configuration validation of
`BigQueryWriteFn.__init__` and `WriteToBigQuery.expand`.

Rows and insert ids are opaque type parameters `α` and `ι`.  Mutable
object state is threaded explicitly through a `WriteFnState` record; the
remote insert service is an oracle `Nat → Bool × List ErrorEntry` indexed
by the global insert-call count; the unbounded `while True` retry loop is
modelled with fuel, `none` standing for non-termination within the given
fuel.  Machinery that the repository snapshot imports from modules not in
the snapshot (`bigquery_tools.RetryStrategy.should_retry`,
`retry.FuzzedExponentialIntervals`) is modelled from the spec, and marked
as such on its definition.
-/

set_option autoImplicit false

namespace BeamBQ

/-- Canonical hashable destination string, `"project:dataset.table"` form. -/
abbrev Destination := String

/-- String constants of `BigQueryDisposition` (bigquery.py:436-443). -/
def CREATE_NEVER : String := "CREATE_NEVER"

def CREATE_IF_NEEDED : String := "CREATE_IF_NEEDED"

def WRITE_TRUNCATE : String := "WRITE_TRUNCATE"

def WRITE_APPEND : String := "WRITE_APPEND"

def WRITE_EMPTY : String := "WRITE_EMPTY"

/-- `BigQueryDisposition.validate_create` (bigquery.py:445-452). -/
def validate_create (disposition : String) : Except String String :=
  if disposition = CREATE_NEVER ∨ disposition = CREATE_IF_NEEDED then .ok disposition
  else .error "Invalid create disposition"

/-- `BigQueryDisposition.validate_write` (bigquery.py:454-463). -/
def validate_write (disposition : String) : Except String String :=
  if disposition = WRITE_TRUNCATE ∨ disposition = WRITE_APPEND ∨ disposition = WRITE_EMPTY then
    .ok disposition
  else .error "Invalid write disposition"

/-- The three retry strategies of `bigquery_tools.RetryStrategy`, as documented
at bigquery.py:1585-1593. -/
inductive RetryStrategy where
  | RETRY_ALWAYS
  | RETRY_NEVER
  | RETRY_ON_TRANSIENT_ERROR
deriving DecidableEq

/-- Modelled from the spec: `RetryStrategy.should_retry` lives in
`bigquery_tools`, which is not part of this repository snapshot.  Spec §4.5
("always continue; never continue; or continue only if at least one returned
reason is transient") and the docstring at bigquery.py:1585-1593.  The
transient/permanent classification of reason codes ("an explicit mapping",
spec §7) is the parameter `transient`. -/
def RetryStrategy.should_retry (transient : String → Bool) :
    RetryStrategy → String → Bool
  | .RETRY_ALWAYS, _ => true
  | .RETRY_NEVER, _ => false
  | .RETRY_ON_TRANSIENT_ERROR, reason => transient reason

/-- One entry of the error list returned by the insert primitive:
`entry.index` into the submitted row list and `entry.errors[0].reason`. -/
structure ErrorEntry where
  index : Nat
  reason : String
deriving DecidableEq, Repr

/-- One issued insert call, as recorded for the proofs: the destination, the
submitted rows and the submitted per-row dedup ids (spec §6: the insert
primitive takes per-row dedup ids positionally parallel to the rows). -/
structure SvcCall (α ι : Type) where
  dest : Destination
  rows : List α
  insert_ids : List (Option ι)
deriving DecidableEq, Repr

/-! ## The per-destination rows buffer

`self._rows_buffer` is a `defaultdict(list)`: an insertion-ordered map from
destination to its buffered rows, missing keys reading as `[]`.  Modelled as
an association list with unique keys. -/

/-- Read `self._rows_buffer[destination]`: first entry with the key, else `[]`. -/
def bufGet {β : Type} : List (Destination × List β) → Destination → List β
  | [], _ => []
  | p :: rest, d => if p.1 = d then p.2 else bufGet rest d

/-- Store a value under a key: replace the existing entry in place, else
append a new entry at the end (Python dict insertion order). -/
def bufSet {β : Type} : List (Destination × List β) → Destination → List β →
    List (Destination × List β)
  | [], d, v => [(d, v)]
  | p :: rest, d, v => if p.1 = d then (d, v) :: rest else p :: bufSet rest d v

/-- `del self._rows_buffer[destination]`. -/
def bufDel {β : Type} : List (Destination × List β) → Destination →
    List (Destination × List β)
  | [], _ => []
  | p :: rest, d => if p.1 = d then bufDel rest d else p :: bufDel rest d

/-- `list(self._rows_buffer.keys())`. -/
def bufKeys {β : Type} (b : List (Destination × List β)) : List Destination :=
  b.map Prod.fst

/-- Total number of buffered rows over all destinations. -/
def bufTotal {β : Type} (b : List (Destination × List β)) : Nat :=
  (b.map (fun p => p.2.length)).sum

/-- The buffer's keys are pairwise distinct (true of any Python dict). -/
def keysNodup {β : Type} (b : List (Destination × List β)) : Prop :=
  (bufKeys b).Nodup

/-! ## Configuration and state of `BigQueryWriteFn` -/

/-- `BigQueryWriteFn.DEFAULT_MAX_BUFFERED_ROWS` (bigquery.py:1058). -/
def DEFAULT_MAX_BUFFERED_ROWS : Nat := 2000

/-- `BigQueryWriteFn.DEFAULT_MAX_BATCH_SIZE` (bigquery.py:1059). -/
def DEFAULT_MAX_BATCH_SIZE : Nat := 500

/-- Python `x or default` applied to an optional integer argument: both
`None` and `0` are falsy and fall back to the default. -/
def pyOrNat (x : Option Nat) (d : Nat) : Nat :=
  match x with
  | none => d
  | some n => if n = 0 then d else n

/-- The configuration fields of a constructed `BigQueryWriteFn`
(bigquery.py:1064-1142), restricted to those the write path reads. -/
structure WriteFnConfig where
  max_batch_size : Nat
  max_buffered_rows : Nat
  retry_strategy : RetryStrategy
  ignore_insert_ids : Bool
  with_batched_input : Bool
  create_disposition : String
  transient : String → Bool

/-- The mutable state of one `BigQueryWriteFn` instance, plus the process-wide
`_KNOWN_TABLES` set (bigquery.py:1052) and bookkeeping traces for the proofs:
`backoff_pos` is the position of the `_backoff_calculator` iterator in its
delay sequence, `slept` the sequence positions consumed by sleeps so far,
`call_log` the insert calls issued so far, `create_calls` the destinations
for which `get_or_create_table` was called so far. -/
structure WriteFnState (α ι : Type) where
  rows_buffer : List (Destination × List (α × ι))
  total_buffered_rows : Int
  backoff_pos : Nat
  slept : List Nat
  call_log : List (SvcCall α ι)
  known_tables : List Destination
  create_calls : List Destination
deriving DecidableEq, Repr

/-- The state right after `BigQueryWriteFn.__init__` with an empty
`_KNOWN_TABLES`: empty buffer, `_total_buffered_rows = 0`. -/
def initState (α ι : Type) : WriteFnState α ι :=
  ⟨[], 0, 0, [], [], [], []⟩

/-- `BigQueryWriteFn.__init__` (bigquery.py:1120-1142): rejects the write
dispositions unsupported for streaming inserts (bigquery.py:1125-1129), then
applies the Python `or`-defaulting to `batch_size`, `max_buffered_rows` and
`retry_strategy`. -/
def writeFn_init (α ι : Type) (batch_size : Option Nat)
    (create_disposition write_disposition : String) (max_buffered_rows : Option Nat)
    (retry_strategy : Option RetryStrategy) (ignore_insert_ids with_batched_input : Bool)
    (transient : String → Bool) :
    Except String (WriteFnConfig × WriteFnState α ι) :=
  if write_disposition = WRITE_EMPTY ∨ write_disposition = WRITE_TRUNCATE then
    .error "Write disposition is not supported for streaming inserts to BigQuery"
  else
    .ok
      (⟨pyOrNat batch_size DEFAULT_MAX_BATCH_SIZE,
        pyOrNat max_buffered_rows DEFAULT_MAX_BUFFERED_ROWS,
        retry_strategy.getD .RETRY_ALWAYS,
        ignore_insert_ids, with_batched_input, create_disposition, transient⟩,
       initState α ι)

/-- `BigQueryWriteFn.start_bundle` (bigquery.py:1191-1205): clears the rows
buffer and builds a fresh `_backoff_calculator` iterator over
`FuzzedExponentialIntervals(initial_delay_secs=0.2, num_retries=10000,
max_delay_secs=1500)`, i.e. resets the consumed position to the start of the
delay sequence.  `_total_buffered_rows` and `_KNOWN_TABLES` persist. -/
def start_bundle {α ι : Type} (st : WriteFnState α ι) : WriteFnState α ι :=
  { st with rows_buffer := [], backoff_pos := 0 }

/-- `BigQueryWriteFn._create_table_if_needed` (bigquery.py:1207-1236): return
if the canonical destination string is already in `_KNOWN_TABLES`; return
without calling if `create_disposition == CREATE_NEVER`; else issue the
`get_or_create_table` call and add the string to `_KNOWN_TABLES`. -/
def create_table_if_needed {α ι : Type} (cfg : WriteFnConfig)
    (st : WriteFnState α ι) (d : Destination) : WriteFnState α ι :=
  if d ∈ st.known_tables then st
  else if cfg.create_disposition = CREATE_NEVER then st
  else
    { st with
        create_calls := st.create_calls ++ [d],
        known_tables := st.known_tables ++ [d] }

/-! ## The flush retry loop (`BigQueryWriteFn._flush_batch`) -/

/-- `failed_rows = [rows[entry.index] for entry in errors]` (bigquery.py:1315).
Python list indexing raises on an out-of-range index; modelled totally with an
optional lookup, used under in-range hypotheses where it matters. -/
def failedRowsOf {α : Type} (rows : List α) (errors : List ErrorEntry) : List α :=
  errors.filterMap (fun e => rows[e.index]?)

/-- The `while True` loop of `_flush_batch` (bigquery.py:1304-1338), with
fuel; `none` models the loop not terminating within the fuel.  Each
iteration: call the insert service (the oracle `svc`, indexed by the global
insert-call count `log.length`), record the call, compute the failed rows,
decide continuation by `RetryStrategy.should_retry` over the returned
reasons, shrink `rows` to the failed rows, and either stop or consume the
next backoff delay and repeat.  Note that `insert_ids` is carried through
the recursion unchanged, exactly as in the source, where it is never
reassigned inside the loop. -/
def flushLoop {α ι : Type} (cfg : WriteFnConfig) (svc : Nat → Bool × List ErrorEntry)
    (dest : Destination) :
    Nat → List α → List (Option ι) → Nat → List (SvcCall α ι) → List Nat →
    Option (List α × Nat × List (SvcCall α ι) × List Nat)
  | 0, _, _, _, _, _ => none
  | fuel + 1, rows, insert_ids, pos, log, slept =>
    let errors := (svc log.length).2
    let log2 := log ++ [⟨dest, rows, insert_ids⟩]
    let failed_rows := failedRowsOf rows errors
    let should_retry :=
      errors.any (fun e => RetryStrategy.should_retry cfg.transient cfg.retry_strategy e.reason)
    if should_retry then
      flushLoop cfg svc dest fuel failed_rows insert_ids (pos + 1) log2 (slept ++ [pos])
    else
      some (failed_rows, pos, log2, slept)

/-- `BigQueryWriteFn._flush_batch` (bigquery.py:1282-1348): read the
destination's buffered `(row, insert_id)` pairs, split into `rows` and
`insert_ids` (all `None` under `ignore_insert_ids`), run the retry loop,
then decrement `_total_buffered_rows` by the destination's buffer length,
delete the destination's buffer entry, and emit one tagged `FailedRows`
output `(destination, row)` per finally-failed row. -/
def flush_batch {α ι : Type} (cfg : WriteFnConfig) (svc : Nat → Bool × List ErrorEntry)
    (fuel : Nat) (st : WriteFnState α ι) (destination : Destination) :
    Option (WriteFnState α ι × List (Destination × α)) :=
  let rows_and_insert_ids := bufGet st.rows_buffer destination
  let rows := rows_and_insert_ids.map Prod.fst
  let insert_ids : List (Option ι) :=
    if cfg.ignore_insert_ids then rows_and_insert_ids.map (fun _ => none)
    else rows_and_insert_ids.map (fun r => some r.2)
  match flushLoop cfg svc destination fuel rows insert_ids st.backoff_pos st.call_log st.slept with
  | none => none
  | some (failed_rows, pos2, log2, slept2) =>
    some
      ({ st with
          backoff_pos := pos2,
          slept := slept2,
          call_log := log2,
          total_buffered_rows :=
            st.total_buffered_rows - (bufGet st.rows_buffer destination).length,
          rows_buffer := bufDel st.rows_buffer destination },
       failed_rows.map (fun row => (destination, row)))

/-- One step of `_flush_all_batches`' comprehension
`[self._flush_batch(destination) for destination in list(keys) if buffer[destination]]`:
skip a destination whose buffer is empty at its turn, else flush it and
chain its outputs. -/
def flushAllStep {α ι : Type} (cfg : WriteFnConfig) (svc : Nat → Bool × List ErrorEntry)
    (fuel : Nat) (acc : WriteFnState α ι × List (Destination × α)) (destination : Destination) :
    Option (WriteFnState α ι × List (Destination × α)) :=
  if (bufGet acc.1.rows_buffer destination).isEmpty then some acc
  else
    match flush_batch cfg svc fuel acc.1 destination with
    | none => none
    | some (st2, out) => some (st2, acc.2 ++ out)

/-- `BigQueryWriteFn._flush_all_batches` (bigquery.py:1270-1280): flush, in
key insertion order, every destination whose buffer is non-empty at its
turn, chaining the outputs. -/
def flush_all {α ι : Type} (cfg : WriteFnConfig) (svc : Nat → Bool × List ErrorEntry)
    (fuel : Nat) (st : WriteFnState α ι) :
    Option (WriteFnState α ι × List (Destination × α)) :=
  (bufKeys st.rows_buffer).foldlM (flushAllStep cfg svc fuel) (st, [])

/-- The `element[1]` payload of an input element: one `(row, insert_id)` pair
on the non-pre-batched path, a destination's complete batch on the
pre-batched (auto-sharding) path. -/
inductive Payload (α ι : Type) where
  | single (r : α × ι)
  | batched (rs : List (α × ι))
deriving DecidableEq

/-- `BigQueryWriteFn.process` (bigquery.py:1238-1263): ensure the table
exists, then on the non-pre-batched path append the `(row, insert_id)` pair
to its destination's batch, increment the global counter, flush just that
destination if its batch reached `_max_batch_size`, else flush all
destinations if the counter reached `_max_buffered_rows`; on the pre-batched
path extend the destination's buffer with the whole batch (no counter
increment) and flush that destination immediately. -/
def process {α ι : Type} (cfg : WriteFnConfig) (svc : Nat → Bool × List ErrorEntry)
    (fuel : Nat) (st : WriteFnState α ι) (element : Destination × Payload α ι) :
    Option (WriteFnState α ι × List (Destination × α)) :=
  let destination := element.1
  let st1 := create_table_if_needed cfg st destination
  if cfg.with_batched_input = false then
    match element.2 with
    | .single row_and_insert_id =>
      let buf := bufGet st1.rows_buffer destination ++ [row_and_insert_id]
      let st2 :=
        { st1 with
            rows_buffer := bufSet st1.rows_buffer destination buf,
            total_buffered_rows := st1.total_buffered_rows + 1 }
      if cfg.max_batch_size ≤ buf.length then
        flush_batch cfg svc fuel st2 destination
      else if (cfg.max_buffered_rows : Int) ≤ st2.total_buffered_rows then
        flush_all cfg svc fuel st2
      else some (st2, [])
    | .batched _ => none
  else
    match element.2 with
    | .batched batched_rows =>
      let st2 :=
        { st1 with
            rows_buffer :=
              bufSet st1.rows_buffer destination
                (bufGet st1.rows_buffer destination ++ batched_rows) }
      flush_batch cfg svc fuel st2 destination
    | .single _ => none

/-- `BigQueryWriteFn.finish_bundle` (bigquery.py:1265-1268): flush every
remaining non-empty destination. -/
def finish_bundle {α ι : Type} (cfg : WriteFnConfig) (svc : Nat → Bool × List ErrorEntry)
    (fuel : Nat) (st : WriteFnState α ι) :
    Option (WriteFnState α ι × List (Destination × α)) :=
  flush_all cfg svc fuel st

/-- Process a sequence of input elements through `process`, collecting the
dead-letter outputs. -/
def runProcess {α ι : Type} (cfg : WriteFnConfig) (svc : Nat → Bool × List ErrorEntry)
    (fuel : Nat) :
    WriteFnState α ι → List (Destination × Payload α ι) →
    Option (WriteFnState α ι × List (Destination × α))
  | st, [] => some (st, [])
  | st, e :: es =>
    (process cfg svc fuel st e).bind fun r =>
      (runProcess cfg svc fuel r.1 es).map fun r2 => (r2.1, r.2 ++ r2.2)

/-- Fold `_create_table_if_needed` over a sequence of incoming destinations. -/
def runCreate {α ι : Type} (cfg : WriteFnConfig) (st : WriteFnState α ι) :
    List Destination → WriteFnState α ι
  | [] => st
  | d :: ds => runCreate cfg (create_table_if_needed cfg st d) ds

/-! ## Fixed sharding (`_StreamToBigQuery.expand`, bigquery.py:1413-1441) -/

/-- bigquery.py:1352. -/
def DEFAULT_SHARDS_PER_DESTINATION : Nat := 500

/-- The values `random.randint(0, DEFAULT_SHARDS_PER_DESTINATION)` can draw:
the Python contract of `randint(a, b)` is the closed interval `a ≤ N ≤ b`,
each value equally likely. -/
def shardDraws : Finset Nat := Finset.Icc 0 DEFAULT_SHARDS_PER_DESTINATION

/-- `_add_random_shard` (bigquery.py:1413-1416), with the value drawn by
`random.randint` passed explicitly. -/
def add_random_shard {β : Type} (element : Destination × β) (r : Nat) :
    (Destination × Nat) × β :=
  ((element.1, r), element.2)

/-- The `DropShard` step `lambda kv: (kv[0][0], kv[1])` (bigquery.py:1441). -/
def dropShard {β : Type} (kv : (Destination × Nat) × β) : Destination × β :=
  (kv.1.1, kv.2)

/-! ## Pipeline-construction validation (`WriteToBigQuery`, bigquery.py:1470-1757) -/

/-- bigquery.py:1467. -/
def SCHEMA_AUTODETECT : String := "SCHEMA_AUTODETECT"

/-- `WriteToBigQuery.Method` (bigquery.py:1477-1480). -/
def METHOD_DEFAULT : String := "DEFAULT"

def STREAMING_INSERTS : String := "STREAMING_INSERTS"

def FILE_LOADS : String := "FILE_LOADS"

def FORMAT_AVRO : String := "AVRO"

/-- Python truthiness of an optional integer (`if self.triggering_frequency:`). -/
def pyTruthyNat (x : Option Nat) : Bool :=
  match x with
  | none => false
  | some n => n != 0

/-- `WriteToBigQuery._compute_method` (bigquery.py:1672-1680). -/
def compute_method (method : String) (is_streaming_pipeline : Bool) : String :=
  if method = METHOD_DEFAULT ∧ is_streaming_pipeline = true then STREAMING_INSERTS
  else if method = METHOD_DEFAULT ∧ is_streaming_pipeline = false then FILE_LOADS
  else method

/-- The configuration checks of `WriteToBigQuery.expand`
(bigquery.py:1682-1757), up to choosing the write path; the chosen path is
returned.  The FILE_LOADS path delegates to the out-of-scope file-loads
module after its own schema checks (bigquery.py:1728-1737). -/
def writeToBigQuery_expand (method : String) (schema : Option String)
    (is_streaming_pipeline with_auto_sharding : Bool)
    (triggering_frequency : Option Nat) (temp_file_format : String) :
    Except String String :=
  if is_streaming_pipeline = false ∧ with_auto_sharding = true then
    .error "with_auto_sharding is not applicable to batch pipelines."
  else
    let method_to_use := compute_method method is_streaming_pipeline
    if method_to_use = STREAMING_INSERTS then
      if schema = some SCHEMA_AUTODETECT then
        .error "Schema auto-detection is not supported for streaming inserts into BigQuery."
      else if pyTruthyNat triggering_frequency then
        .error "triggering_frequency can only be used with FILE_LOADS."
      else .ok STREAMING_INSERTS
    else
      if temp_file_format = FORMAT_AVRO ∧ schema = some SCHEMA_AUTODETECT then
        .error "Schema auto-detection is not supported when using Avro based file loads."
      else if temp_file_format = FORMAT_AVRO ∧ schema = none then
        .error "A schema must be provided when writing to BigQuery using Avro based file loads"
      else .ok FILE_LOADS

/-- Modelled from the spec: `retry.FuzzedExponentialIntervals` is not part of
this repository snapshot.  Spec §4.5 and §9: the fuzzed exponential-backoff
sequence is modelled as a pure function of the position in the sequence;
`backoffBase n` is the un-fuzzed delay in seconds at position `n`: initial
0.2 s doubling each step, capped at 1500 s. -/
def backoffBase (n : Nat) : ℚ := min ((1 / 5 : ℚ) * 2 ^ n) 1500

/-! ## Lemmas about the rows buffer -/

theorem bufGet_set_self {β : Type} (b : List (Destination × List β)) (d : Destination)
    (v : List β) : bufGet (bufSet b d v) d = v := by
  induction b with
  | nil => simp [bufGet, bufSet]
  | cons p rest ih =>
    by_cases h : p.1 = d
    · simp [bufGet, bufSet, h]
    · simp [bufGet, bufSet, h, ih]

theorem bufGet_not_mem {β : Type} (b : List (Destination × List β)) (d : Destination)
    (h : d ∉ bufKeys b) : bufGet b d = [] := by
  induction b with
  | nil => simp [bufGet]
  | cons p rest ih =>
    simp only [bufKeys, List.map_cons, List.mem_cons] at h
    push_neg at h
    simp only [bufGet, if_neg (fun hpd : p.1 = d => h.1 hpd.symm)]
    exact ih (by simpa [bufKeys] using h.2)

theorem bufDel_not_mem {β : Type} (b : List (Destination × List β)) (d : Destination)
    (h : d ∉ bufKeys b) : bufDel b d = b := by
  induction b with
  | nil => simp [bufDel]
  | cons p rest ih =>
    simp only [bufKeys, List.map_cons, List.mem_cons] at h
    push_neg at h
    simp only [bufDel, if_neg (fun hpd : p.1 = d => h.1 hpd.symm)]
    rw [ih (by simpa [bufKeys] using h.2)]

theorem bufGet_del_self {β : Type} (b : List (Destination × List β)) (d : Destination) :
    bufGet (bufDel b d) d = [] := by
  induction b with
  | nil => simp [bufDel, bufGet]
  | cons p rest ih =>
    by_cases h : p.1 = d
    · simp [bufDel, h, ih]
    · simp [bufDel, bufGet, h, ih]

theorem mem_bufDel {β : Type} (b : List (Destination × List β)) (d : Destination)
    (p : Destination × List β) (h : p ∈ bufDel b d) : p ∈ b ∧ p.1 ≠ d := by
  induction b with
  | nil => simp [bufDel] at h
  | cons q rest ih =>
    by_cases hq : q.1 = d
    · simp only [bufDel, if_pos hq] at h
      exact ⟨List.mem_cons_of_mem _ (ih h).1, (ih h).2⟩
    · simp only [bufDel, if_neg hq, List.mem_cons] at h
      rcases h with h | h
      · subst h
        exact ⟨List.mem_cons_self _ _, hq⟩
      · exact ⟨List.mem_cons_of_mem _ (ih h).1, (ih h).2⟩

theorem bufKeys_set_mem {β : Type} (b : List (Destination × List β)) (d : Destination)
    (v : List β) (x : Destination) (h : x ∈ bufKeys (bufSet b d v)) :
    x = d ∨ x ∈ bufKeys b := by
  induction b with
  | nil => simpa [bufSet, bufKeys] using h
  | cons p rest ih =>
    by_cases hp : p.1 = d
    · simp only [bufSet, if_pos hp, bufKeys, List.map_cons, List.mem_cons] at h ⊢
      tauto
    · simp only [bufSet, if_neg hp, bufKeys, List.map_cons, List.mem_cons] at h ⊢
      rcases h with h | h
      · tauto
      · rcases ih h with h | h <;> tauto

theorem keysNodup_set {β : Type} (b : List (Destination × List β)) (d : Destination)
    (v : List β) (h : keysNodup b) : keysNodup (bufSet b d v) := by
  induction b with
  | nil => simp [bufSet, keysNodup, bufKeys]
  | cons p rest ih =>
    simp only [keysNodup, bufKeys, List.map_cons, List.nodup_cons] at h
    by_cases hp : p.1 = d
    · simp only [keysNodup, bufSet, if_pos hp, bufKeys, List.map_cons, List.nodup_cons]
      exact ⟨hp ▸ h.1, h.2⟩
    · simp only [keysNodup, bufSet, if_neg hp, bufKeys, List.map_cons, List.nodup_cons]
      refine ⟨fun hmem => ?_, ih h.2⟩
      rcases bufKeys_set_mem rest d v p.1 hmem with h1 | h1
      · exact hp h1
      · exact h.1 h1

theorem keysNodup_del {β : Type} (b : List (Destination × List β)) (d : Destination)
    (h : keysNodup b) : keysNodup (bufDel b d) := by
  induction b with
  | nil => simpa [bufDel] using h
  | cons p rest ih =>
    simp only [keysNodup, bufKeys, List.map_cons, List.nodup_cons] at h
    by_cases hp : p.1 = d
    · simp only [bufDel, if_pos hp]
      exact ih h.2
    · simp only [keysNodup, bufDel, if_neg hp, bufKeys, List.map_cons, List.nodup_cons]
      refine ⟨fun hmem => ?_, ih h.2⟩
      rcases List.mem_map.mp hmem with ⟨q, hq, hqx⟩
      exact h.1 (List.mem_map.mpr ⟨q, (mem_bufDel rest d q hq).1, hqx⟩)

theorem bufGet_mem {β : Type} (b : List (Destination × List β)) (d : Destination)
    (v : List β) (hN : keysNodup b) (hm : (d, v) ∈ b) : bufGet b d = v := by
  induction b with
  | nil => simp at hm
  | cons p rest ih =>
    simp only [keysNodup, bufKeys, List.map_cons, List.nodup_cons] at hN
    rcases List.mem_cons.mp hm with h | h
    · simp [bufGet, ← h]
    · have hd : d ∈ bufKeys rest := List.mem_map.mpr ⟨(d, v), h, rfl⟩
      have hp : p.1 ≠ d := fun hpd => hN.1 (hpd ▸ hd)
      simp only [bufGet, if_neg hp]
      exact ih hN.2 h

theorem bufTotal_cons {β : Type} (p : Destination × List β) (rest : List (Destination × List β)) :
    bufTotal (p :: rest) = p.2.length + bufTotal rest := by
  simp [bufTotal]

theorem bufTotal_set {β : Type} (b : List (Destination × List β)) (d : Destination)
    (v : List β) (hN : keysNodup b) :
    bufTotal (bufSet b d v) + (bufGet b d).length = bufTotal b + v.length := by
  induction b with
  | nil => simp [bufSet, bufGet, bufTotal]
  | cons p rest ih =>
    simp only [keysNodup, bufKeys, List.map_cons, List.nodup_cons] at hN
    by_cases hp : p.1 = d
    · simp only [bufSet, if_pos hp, bufGet, bufTotal_cons]
      have : bufGet rest d = [] := bufGet_not_mem rest d (hp ▸ hN.1)
      omega
    · simp only [bufSet, if_neg hp, bufGet, bufTotal_cons]
      have := ih hN.2
      omega

theorem bufTotal_del {β : Type} (b : List (Destination × List β)) (d : Destination)
    (hN : keysNodup b) :
    bufTotal (bufDel b d) + (bufGet b d).length = bufTotal b := by
  induction b with
  | nil => simp [bufDel, bufGet, bufTotal]
  | cons p rest ih =>
    simp only [keysNodup, bufKeys, List.map_cons, List.nodup_cons] at hN
    by_cases hp : p.1 = d
    · simp only [bufDel, if_pos hp, bufGet, bufTotal_cons]
      rw [bufDel_not_mem rest d (hp ▸ hN.1)]
      omega
    · simp only [bufDel, if_neg hp, bufGet, bufTotal_cons]
      have := ih hN.2
      omega

theorem bufTotal_eq_zero {β : Type} (b : List (Destination × List β))
    (h : ∀ p ∈ b, p.2 = []) : bufTotal b = 0 := by
  induction b with
  | nil => simp [bufTotal]
  | cons p rest ih =>
    rw [bufTotal_cons, h p (List.mem_cons_self p rest)]
    simp only [List.length_nil, Nat.zero_add]
    exact ih (fun q hq => h q (List.mem_cons_of_mem p hq))

/-! ## Structural lemmas about flushing -/

theorem create_table_fields {α ι : Type} (cfg : WriteFnConfig) (st : WriteFnState α ι)
    (d : Destination) :
    (create_table_if_needed cfg st d).rows_buffer = st.rows_buffer ∧
    (create_table_if_needed cfg st d).total_buffered_rows = st.total_buffered_rows ∧
    (create_table_if_needed cfg st d).backoff_pos = st.backoff_pos ∧
    (create_table_if_needed cfg st d).slept = st.slept ∧
    (create_table_if_needed cfg st d).call_log = st.call_log := by
  unfold create_table_if_needed
  split_ifs <;> simp

/-- What a successful `_flush_batch` does to the buffer, the counter and the
process-wide fields, for any service behaviour and any retry strategy: the
destination's entry is removed and the counter drops by its length. -/
theorem flush_batch_some {α ι : Type} (cfg : WriteFnConfig) (svc : Nat → Bool × List ErrorEntry)
    (fuel : Nat) (st : WriteFnState α ι) (d : Destination) (st2 : WriteFnState α ι)
    (out : List (Destination × α)) (h : flush_batch cfg svc fuel st d = some (st2, out)) :
    st2.rows_buffer = bufDel st.rows_buffer d ∧
    st2.total_buffered_rows = st.total_buffered_rows - ((bufGet st.rows_buffer d).length : Int) ∧
    st2.known_tables = st.known_tables ∧
    st2.create_calls = st.create_calls := by
  unfold flush_batch at h
  by_cases hii : cfg.ignore_insert_ids = true
  · simp only [hii, if_true] at h
    cases hl : flushLoop cfg svc d fuel ((bufGet st.rows_buffer d).map Prod.fst)
        ((bufGet st.rows_buffer d).map (fun _ => (none : Option ι)))
        st.backoff_pos st.call_log st.slept with
    | none =>
      rw [hl] at h
      exact absurd h (by simp)
    | some r =>
      obtain ⟨failed, pos2, log2, slept2⟩ := r
      rw [hl] at h
      simp only [Option.some.injEq, Prod.mk.injEq] at h
      obtain ⟨h1, -⟩ := h
      subst h1
      simp
  · simp only [hii, Bool.false_eq_true, if_false] at h
    cases hl : flushLoop cfg svc d fuel ((bufGet st.rows_buffer d).map Prod.fst)
        ((bufGet st.rows_buffer d).map (fun r => (some r.2 : Option ι)))
        st.backoff_pos st.call_log st.slept with
    | none =>
      rw [hl] at h
      exact absurd h (by simp)
    | some r =>
      obtain ⟨failed, pos2, log2, slept2⟩ := r
      rw [hl] at h
      simp only [Option.some.injEq, Prod.mk.injEq] at h
      obtain ⟨h1, -⟩ := h
      subst h1
      simp

/-- A successful `_flush_batch` keeps the buffer-counter coherence invariant. -/
theorem flush_batch_inv {α ι : Type} (cfg : WriteFnConfig) (svc : Nat → Bool × List ErrorEntry)
    (fuel : Nat) (st : WriteFnState α ι) (d : Destination) (st2 : WriteFnState α ι)
    (out : List (Destination × α))
    (hN : keysNodup st.rows_buffer)
    (hC : st.total_buffered_rows = (bufTotal st.rows_buffer : Int))
    (h : flush_batch cfg svc fuel st d = some (st2, out)) :
    keysNodup st2.rows_buffer ∧
    st2.total_buffered_rows = (bufTotal st2.rows_buffer : Int) := by
  obtain ⟨hb, hc, -, -⟩ := flush_batch_some cfg svc fuel st d st2 out h
  refine ⟨hb ▸ keysNodup_del st.rows_buffer d hN, ?_⟩
  have htot := bufTotal_del st.rows_buffer d hN
  rw [hb, hc, hC]
  omega

/-- Generalized invariant for the `_flush_all_batches` fold: starting from a
coherent state whose every buffered entry has its key among the keys still
to visit (or is already empty), a successful fold drains the buffer
completely and returns the counter to zero. -/
theorem flushAll_fold_inv {α ι : Type} (cfg : WriteFnConfig) (svc : Nat → Bool × List ErrorEntry)
    (fuel : Nat) :
    ∀ (ks : List Destination) (st : WriteFnState α ι) (acc : List (Destination × α))
      (st2 : WriteFnState α ι) (out2 : List (Destination × α)),
      keysNodup st.rows_buffer →
      st.total_buffered_rows = (bufTotal st.rows_buffer : Int) →
      (∀ p ∈ st.rows_buffer, p.1 ∈ ks ∨ p.2 = []) →
      ks.foldlM (flushAllStep cfg svc fuel) (st, acc) = some (st2, out2) →
      keysNodup st2.rows_buffer ∧
      st2.total_buffered_rows = (bufTotal st2.rows_buffer : Int) ∧
      (∀ p ∈ st2.rows_buffer, p.2 = ([] : List (α × ι))) := by
  intro ks
  induction ks with
  | nil =>
    intro st acc st2 out2 hN hC hK h
    simp only [List.foldlM_nil, Option.pure_def, Option.some.injEq, Prod.mk.injEq] at h
    obtain ⟨h1, -⟩ := h
    subst h1
    exact ⟨hN, hC, fun p hp => (hK p hp).resolve_left (by simp)⟩
  | cons k ks2 ih =>
    intro st acc st2 out2 hN hC hK h
    rw [List.foldlM_cons] at h
    by_cases hemp : (bufGet st.rows_buffer k).isEmpty
    · rw [show flushAllStep cfg svc fuel (st, acc) k = some (st, acc) by
        simp [flushAllStep, hemp]] at h
      simp only [Option.bind_eq_bind, Option.some_bind] at h
      refine ih st acc st2 out2 hN hC (fun p hp => ?_) h
      rcases hK p hp with hk | hk
      · rcases List.mem_cons.mp hk with hk1 | hk1
        · right
          have := bufGet_mem st.rows_buffer p.1 p.2 hN (by simpa using hp)
          rw [hk1] at this
          rw [← this]
          simpa using hemp
        · exact Or.inl hk1
      · exact Or.inr hk
    · rw [show flushAllStep cfg svc fuel (st, acc) k =
          match flush_batch cfg svc fuel st k with
          | none => none
          | some (stm, outm) => some (stm, acc ++ outm) by
        simp [flushAllStep, hemp]] at h
      cases hfb : flush_batch cfg svc fuel st k with
      | none =>
        rw [hfb] at h
        simp at h
      | some r =>
        obtain ⟨stm, outm⟩ := r
        rw [hfb] at h
        simp only [Option.bind_eq_bind, Option.some_bind] at h
        obtain ⟨hbm, -, -, -⟩ := flush_batch_some cfg svc fuel st k stm outm hfb
        obtain ⟨hNm, hCm⟩ := flush_batch_inv cfg svc fuel st k stm outm hN hC hfb
        refine ih stm (acc ++ outm) st2 out2 hNm hCm (fun p hp => ?_) h
        rw [hbm] at hp
        obtain ⟨hpmem, hpne⟩ := mem_bufDel st.rows_buffer k p hp
        rcases hK p hpmem with hk | hk
        · exact Or.inl ((List.mem_cons.mp hk).resolve_left hpne)
        · exact Or.inr hk

/-- A successful `_flush_all_batches` from a coherent state drains every
destination and returns the counter to zero. -/
theorem flush_all_inv {α ι : Type} (cfg : WriteFnConfig) (svc : Nat → Bool × List ErrorEntry)
    (fuel : Nat) (st : WriteFnState α ι) (st2 : WriteFnState α ι)
    (out2 : List (Destination × α))
    (hN : keysNodup st.rows_buffer)
    (hC : st.total_buffered_rows = (bufTotal st.rows_buffer : Int))
    (h : flush_all cfg svc fuel st = some (st2, out2)) :
    keysNodup st2.rows_buffer ∧ st2.total_buffered_rows = 0 ∧
    bufTotal st2.rows_buffer = 0 := by
  obtain ⟨hN2, hC2, hempty⟩ :=
    flushAll_fold_inv cfg svc fuel (bufKeys st.rows_buffer) st [] st2 out2 hN hC
      (fun p hp => Or.inl (List.mem_map.mpr ⟨p, hp, rfl⟩)) h
  have hz := bufTotal_eq_zero st2.rows_buffer hempty
  refine ⟨hN2, ?_, hz⟩
  rw [hC2, hz]
  simp

/-! ## Unfolding lemmas for `process`: the dispatch structure of the two paths -/

/-- On the non-pre-batched path, `process` appends the `(row, insert_id)` pair
to its destination's batch, increments the counter, then flushes just that
destination if its batch reached `_max_batch_size`, else flushes all
destinations if the counter reached `_max_buffered_rows`, else buffers. -/
theorem process_single_eq {α ι : Type} (cfg : WriteFnConfig) (svc : Nat → Bool × List ErrorEntry)
    (fuel : Nat) (st : WriteFnState α ι) (d : Destination) (r : α × ι)
    (hb : cfg.with_batched_input = false) :
    process cfg svc fuel st (d, .single r) =
      (let st1 := create_table_if_needed cfg st d
       let buf := bufGet st1.rows_buffer d ++ [r]
       let st2 :=
         { st1 with
             rows_buffer := bufSet st1.rows_buffer d buf,
             total_buffered_rows := st1.total_buffered_rows + 1 }
       if cfg.max_batch_size ≤ buf.length then flush_batch cfg svc fuel st2 d
       else if (cfg.max_buffered_rows : Int) ≤ st2.total_buffered_rows then
         flush_all cfg svc fuel st2
       else some (st2, [])) := by
  simp [process, hb]

/-- On the pre-batched path, `process` extends the destination's buffer with
the whole incoming batch, does not touch the counter, and flushes that
destination immediately. -/
theorem process_batched_eq {α ι : Type} (cfg : WriteFnConfig) (svc : Nat → Bool × List ErrorEntry)
    (fuel : Nat) (st : WriteFnState α ι) (d : Destination) (rs : List (α × ι))
    (hb : cfg.with_batched_input = true) :
    process cfg svc fuel st (d, .batched rs) =
      (let st1 := create_table_if_needed cfg st d
       let st2 :=
         { st1 with
             rows_buffer :=
               bufSet st1.rows_buffer d (bufGet st1.rows_buffer d ++ rs) }
       flush_batch cfg svc fuel st2 d) := by
  simp [process, hb]

/-! ## Invariant: the buffered-row counter (claim C5) -/

/-- One `process` call on the non-pre-batched path keeps the counter equal to
the number of buffered rows and strictly below `_max_buffered_rows`. -/
theorem process_inv {α ι : Type} (cfg : WriteFnConfig) (svc : Nat → Bool × List ErrorEntry)
    (fuel : Nat) (st : WriteFnState α ι) (e : Destination × Payload α ι)
    (st2 : WriteFnState α ι) (out : List (Destination × α))
    (hb : cfg.with_batched_input = false)
    (hmax : 0 < cfg.max_buffered_rows)
    (hN : keysNodup st.rows_buffer)
    (hC : st.total_buffered_rows = (bufTotal st.rows_buffer : Int))
    (hLt : st.total_buffered_rows < (cfg.max_buffered_rows : Int))
    (h : process cfg svc fuel st e = some (st2, out)) :
    keysNodup st2.rows_buffer ∧
    st2.total_buffered_rows = (bufTotal st2.rows_buffer : Int) ∧
    st2.total_buffered_rows < (cfg.max_buffered_rows : Int) := by
  obtain ⟨d, payload⟩ := e
  cases payload with
  | batched rs =>
    rw [show process cfg svc fuel st (d, .batched rs) = none by simp [process, hb]] at h
    exact absurd h (by simp)
  | single r =>
    rw [process_single_eq cfg svc fuel st d r hb] at h
    obtain ⟨hcb, hcc, -, -, -⟩ := create_table_fields cfg st d
    simp only [hcb, hcc] at h
    have hN2 : keysNodup (bufSet st.rows_buffer d (bufGet st.rows_buffer d ++ [r])) :=
      keysNodup_set st.rows_buffer d _ hN
    have hT2 := bufTotal_set st.rows_buffer d (bufGet st.rows_buffer d ++ [r]) hN
    simp only [List.length_append, List.length_cons, List.length_nil] at hT2
    split at h
    · -- the destination's batch reached _max_batch_size: flush just it
      obtain ⟨-, htot, -, -⟩ := flush_batch_some _ _ _ _ _ _ _ h
      obtain ⟨hN3, hC3⟩ :=
        flush_batch_inv _ _ _ _ _ _ _ hN2
          (by simp only []; omega) h
      refine ⟨hN3, hC3, ?_⟩
      simp only [] at htot
      rw [bufGet_set_self] at htot
      simp only [List.length_append, List.length_cons, List.length_nil] at htot
      omega
    · split at h
      · -- the global counter reached _max_buffered_rows: flush everything
        obtain ⟨hN3, hC3, hB3⟩ :=
          flush_all_inv _ _ _ _ _ _ hN2 (by simp only []; omega) h
        refine ⟨hN3, ?_, ?_⟩
        · rw [hC3, hB3]
          simp
        · rw [hC3]
          exact_mod_cast hmax
      · -- neither threshold crossed: just buffer
        simp only [Option.some.injEq, Prod.mk.injEq] at h
        obtain ⟨h1, -⟩ := h
        subst h1
        refine ⟨hN2, ?_, ?_⟩
        · simp only []
          omega
        · simp only []
          omega

/-- The counter invariant holds along any successful `process` sequence on
the non-pre-batched path. -/
theorem runProcess_inv {α ι : Type} (cfg : WriteFnConfig) (svc : Nat → Bool × List ErrorEntry)
    (fuel : Nat)
    (hb : cfg.with_batched_input = false)
    (hmax : 0 < cfg.max_buffered_rows) :
    ∀ (es : List (Destination × Payload α ι)) (st st2 : WriteFnState α ι)
      (out : List (Destination × α)),
      keysNodup st.rows_buffer →
      st.total_buffered_rows = (bufTotal st.rows_buffer : Int) →
      st.total_buffered_rows < (cfg.max_buffered_rows : Int) →
      runProcess cfg svc fuel st es = some (st2, out) →
      st2.total_buffered_rows < (cfg.max_buffered_rows : Int) := by
  intro es
  induction es with
  | nil =>
    intro st st2 out hN hC hLt h
    simp only [runProcess, Option.some.injEq, Prod.mk.injEq] at h
    obtain ⟨h1, -⟩ := h
    subst h1
    exact hLt
  | cons e es2 ih =>
    intro st st2 out hN hC hLt h
    simp only [runProcess] at h
    cases hp : process cfg svc fuel st e with
    | none =>
      rw [hp] at h
      exact absurd h (by simp)
    | some r =>
      obtain ⟨stm, outm⟩ := r
      rw [hp] at h
      simp only [Option.some_bind] at h
      obtain ⟨hNm, hCm, hLtm⟩ := process_inv cfg svc fuel st e stm outm hb hmax hN hC hLt hp
      cases hr : runProcess cfg svc fuel stm es2 with
      | none =>
        rw [hr] at h
        exact absurd h (by simp)
      | some r2 =>
        obtain ⟨st3, out3⟩ := r2
        rw [hr] at h
        simp only [Option.map_some', Option.some.injEq, Prod.mk.injEq] at h
        obtain ⟨h1, -⟩ := h
        subst h1
        exact ih stm st3 out3 hNm hCm hLtm hr

/-! ## Lemmas about the retry loop -/

/-- Backoff-position accounting for the retry loop: a terminating loop that
starts at sequence position `pos` consumes exactly the consecutive positions
`pos, pos + 1, …` — it never restarts from the beginning of the sequence. -/
theorem flushLoop_slept {α ι : Type} (cfg : WriteFnConfig) (svc : Nat → Bool × List ErrorEntry)
    (dest : Destination) :
    ∀ (fuel : Nat) (rows : List α) (ids : List (Option ι)) (pos : Nat)
      (log : List (SvcCall α ι)) (slept : List Nat)
      (rows2 : List α) (pos2 : Nat) (log2 : List (SvcCall α ι)) (slept2 : List Nat),
      flushLoop cfg svc dest fuel rows ids pos log slept = some (rows2, pos2, log2, slept2) →
      slept2 = slept ++ List.range' pos (pos2 - pos) ∧ pos ≤ pos2 := by
  intro fuel
  induction fuel with
  | zero =>
    intro rows ids pos log slept rows2 pos2 log2 slept2 h
    exact absurd h (by simp [flushLoop])
  | succ n ih =>
    intro rows ids pos log slept rows2 pos2 log2 slept2 h
    simp only [flushLoop] at h
    split at h
    · obtain ⟨hs, hle⟩ := ih _ _ _ _ _ _ _ _ _ h
      have hdiff : pos2 - pos = (pos2 - (pos + 1)) + 1 := by omega
      refine ⟨?_, by omega⟩
      rw [hs, hdiff, List.range'_succ, List.append_assoc]
      rfl
    · simp only [Option.some.injEq, Prod.mk.injEq] at h
      obtain ⟨-, h2, -, h4⟩ := h
      subst h2
      rw [← h4]
      simp

/-- Call-log accounting for the retry loop: a terminating loop extends the
log, and the first call it issues submits exactly the rows and insert ids it
was invoked with. -/
theorem flushLoop_log {α ι : Type} (cfg : WriteFnConfig) (svc : Nat → Bool × List ErrorEntry)
    (dest : Destination) :
    ∀ (fuel : Nat) (rows : List α) (ids : List (Option ι)) (pos : Nat)
      (log : List (SvcCall α ι)) (slept : List Nat)
      (rows2 : List α) (pos2 : Nat) (log2 : List (SvcCall α ι)) (slept2 : List Nat),
      flushLoop cfg svc dest fuel rows ids pos log slept = some (rows2, pos2, log2, slept2) →
      log2.take log.length = log ∧ log2[log.length]? = some ⟨dest, rows, ids⟩ := by
  intro fuel
  induction fuel with
  | zero =>
    intro rows ids pos log slept rows2 pos2 log2 slept2 h
    exact absurd h (by simp [flushLoop])
  | succ n ih =>
    intro rows ids pos log slept rows2 pos2 log2 slept2 h
    simp only [flushLoop] at h
    split at h
    · obtain ⟨ht, -⟩ := ih _ _ _ _ _ _ _ _ _ h
      simp only [List.length_append, List.length_singleton] at ht
      constructor
      · have hle : log.length ≤ log.length + 1 := Nat.le_succ _
        rw [show log2.take log.length = (log2.take (log.length + 1)).take log.length by
          rw [List.take_take, Nat.min_eq_left hle]]
        rw [ht]
        exact List.take_left log [⟨dest, rows, ids⟩]
      · have hgt : (log2.take (log.length + 1))[log.length]? = log2[log.length]? := by
          rw [List.getElem?_take]
          simp
        rw [← hgt, ht]
        exact List.getElem?_concat_length log ⟨dest, rows, ids⟩
    · simp only [Option.some.injEq, Prod.mk.injEq] at h
      obtain ⟨-, -, h3, -⟩ := h
      subst h3
      exact ⟨List.take_left log [⟨dest, rows, ids⟩],
        List.getElem?_concat_length log ⟨dest, rows, ids⟩⟩

/-- Under `RETRY_ALWAYS`, if every insert call reports at least one failed
row, the retry loop never terminates, whatever the fuel. -/
theorem flushLoop_always_none {α ι : Type} (cfg : WriteFnConfig)
    (svc : Nat → Bool × List ErrorEntry) (dest : Destination)
    (hstrat : cfg.retry_strategy = .RETRY_ALWAYS)
    (hfail : ∀ n, (svc n).2 ≠ []) :
    ∀ (fuel : Nat) (rows : List α) (ids : List (Option ι)) (pos : Nat)
      (log : List (SvcCall α ι)) (slept : List Nat),
      flushLoop cfg svc dest fuel rows ids pos log slept = none := by
  intro fuel
  induction fuel with
  | zero => intro rows ids pos log slept; simp [flushLoop]
  | succ n ih =>
    intro rows ids pos log slept
    simp only [flushLoop]
    obtain ⟨e, he⟩ := List.exists_mem_of_ne_nil _ (hfail log.length)
    rw [if_pos (List.any_eq_true.mpr ⟨e, he, by rw [hstrat]; rfl⟩)]
    exact ih _ _ _ _ _

/-! ## Lemmas about the table-existence cache -/

/-- Under `CREATE_NEVER` the create-or-get call is never issued and the
state is untouched. -/
theorem create_table_never {α ι : Type} (cfg : WriteFnConfig)
    (hcd : cfg.create_disposition = CREATE_NEVER) (st : WriteFnState α ι)
    (d : Destination) : create_table_if_needed cfg st d = st := by
  unfold create_table_if_needed
  split_ifs <;> rfl

theorem runCreate_never {α ι : Type} (cfg : WriteFnConfig)
    (hcd : cfg.create_disposition = CREATE_NEVER) :
    ∀ (ds : List Destination) (st : WriteFnState α ι), runCreate cfg st ds = st := by
  intro ds
  induction ds with
  | nil => intro st; rfl
  | cons k ds2 ih =>
    intro st
    rw [runCreate, create_table_never cfg hcd st k, ih st]

/-- One `_create_table_if_needed` call preserves the cache invariant: every
destination already called for is in the cache, and no destination has been
called for twice. -/
theorem create_table_step_inv {α ι : Type} (cfg : WriteFnConfig) (st : WriteFnState α ι)
    (k : Destination)
    (h1 : ∀ d, d ∈ st.create_calls → d ∈ st.known_tables)
    (h2 : ∀ d, st.create_calls.count d ≤ 1) :
    (∀ d, d ∈ (create_table_if_needed cfg st k).create_calls →
       d ∈ (create_table_if_needed cfg st k).known_tables) ∧
    (∀ d, (create_table_if_needed cfg st k).create_calls.count d ≤ 1) := by
  unfold create_table_if_needed
  split_ifs with hmem hnever
  · exact ⟨h1, h2⟩
  · exact ⟨h1, h2⟩
  · constructor
    · intro d hd
      simp only [List.mem_append, List.mem_singleton] at hd ⊢
      rcases hd with hd | hd
      · exact Or.inl (h1 d hd)
      · exact Or.inr hd
    · intro d
      simp only [List.count_append]
      by_cases hdk : d = k
      · subst hdk
        have hz : st.create_calls.count d = 0 := by
          rw [List.count_eq_zero]
          intro hmem2
          exact hmem (h1 d hmem2)
        rw [hz]
        simp
      · have hz : List.count d [k] = 0 := by
          rw [List.count_eq_zero]
          simp only [List.mem_singleton]
          exact hdk
        rw [hz]
        exact Nat.le_trans (by omega) (h2 d)

/-- The cache invariant holds along any sequence of incoming destinations. -/
theorem runCreate_inv {α ι : Type} (cfg : WriteFnConfig) :
    ∀ (ds : List Destination) (st : WriteFnState α ι),
      (∀ d, d ∈ st.create_calls → d ∈ st.known_tables) →
      (∀ d, st.create_calls.count d ≤ 1) →
      (∀ d, ((runCreate cfg st ds).create_calls.count d) ≤ 1) := by
  intro ds
  induction ds with
  | nil => intro st h1 h2; exact h2
  | cons k ds2 ih =>
    intro st h1 h2
    rw [runCreate]
    obtain ⟨g1, g2⟩ := create_table_step_inv cfg st k h1 h2
    exact ih _ g1 g2

/-! ## The pre-batched path and the counter (claim C10) -/

theorem runProcess_batched {α ι : Type} (cfg : WriteFnConfig)
    (svc : Nat → Bool × List ErrorEntry) (fuel : Nat)
    (hb : cfg.with_batched_input = true) :
    ∀ (es : List (Destination × List (α × ι))) (st : WriteFnState α ι)
      (st2 : WriteFnState α ι) (out : List (Destination × α)),
      st.rows_buffer = [] →
      runProcess cfg svc fuel st (es.map fun e => (e.1, Payload.batched e.2)) =
        some (st2, out) →
      st2.rows_buffer = [] ∧
      st2.total_buffered_rows =
        st.total_buffered_rows - (((es.map fun e => e.2.length).sum : Int)) := by
  intro es
  induction es with
  | nil =>
    intro st st2 out hbuf h
    simp only [List.map_nil, runProcess, Option.some.injEq, Prod.mk.injEq] at h
    obtain ⟨h1, -⟩ := h
    subst h1
    simp [hbuf]
  | cons e es2 ih =>
    obtain ⟨d, rs⟩ := e
    intro st st2 out hbuf h
    simp only [List.map_cons, runProcess] at h
    cases hp : process cfg svc fuel st (d, Payload.batched rs) with
    | none =>
      rw [hp] at h
      exact absurd h (by simp)
    | some r =>
      obtain ⟨stm, outm⟩ := r
      rw [hp] at h
      simp only [Option.some_bind] at h
      rw [process_batched_eq cfg svc fuel st d rs hb] at hp
      obtain ⟨hcb, hcc, -, -, -⟩ := create_table_fields cfg st d
      simp only [hcb, hcc, hbuf] at hp
      simp only [show bufGet ([] : List (Destination × List (α × ι))) d = [] from rfl,
        List.nil_append,
        show bufSet ([] : List (Destination × List (α × ι))) d rs = [(d, rs)] from rfl] at hp
      obtain ⟨hbm, htm, -, -⟩ := flush_batch_some _ _ _ _ _ _ _ hp
      simp only [] at hbm htm
      rw [show bufDel [(d, rs)] d = ([] : List (Destination × List (α × ι))) by
        simp [bufDel]] at hbm
      rw [show bufGet [(d, rs)] d = rs by simp [bufGet]] at htm
      cases hr : runProcess cfg svc fuel stm (es2.map fun e => (e.1, Payload.batched e.2)) with
      | none =>
        rw [hr] at h
        exact absurd h (by simp)
      | some r2 =>
        obtain ⟨st3, out3⟩ := r2
        rw [hr] at h
        simp only [Option.map_some', Option.some.injEq, Prod.mk.injEq] at h
        obtain ⟨h1, -⟩ := h
        subst h1
        obtain ⟨g1, g2⟩ := ih stm st3 out3 hbm hr
        refine ⟨g1, ?_⟩
        rw [g2, htm]
        simp only [List.map_cons, List.sum_cons]
        ring

/-! ## Concrete fixtures used by the claim theorems and witnesses -/

/-- On-transient-only configuration classifying `"timeout"` as transient. -/
def cfgTransient : WriteFnConfig :=
  ⟨500, 2000, .RETRY_ON_TRANSIENT_ERROR, false, false, CREATE_IF_NEEDED, fun r => r == "timeout"⟩

/-- A service whose first call fails only the row at index 1 with a transient
reason and succeeds afterwards. -/
def svcFailSecondOnce : Nat → Bool × List ErrorEntry :=
  fun n => if n = 0 then (false, [⟨1, "timeout"⟩]) else (true, [])

/-- A state buffering, for destination `"p:d.t"`, the rows 10 and 20 with
insert ids `"b0"` and `"b1"`. -/
def stTwoRows : WriteFnState Nat String :=
  ⟨[("p:d.t", [(10, "b0"), (20, "b1")])], 2, 0, [], [], [], []⟩

/-- Never-retry configuration. -/
def cfgNever : WriteFnConfig :=
  ⟨500, 2000, .RETRY_NEVER, false, false, CREATE_IF_NEEDED, fun _ => false⟩

/-- Always-retry configuration. -/
def cfgAlways : WriteFnConfig :=
  ⟨500, 2000, .RETRY_ALWAYS, false, false, CREATE_IF_NEEDED, fun _ => false⟩

/-- Pre-batched-input (auto-sharding) configuration. -/
def cfgBatched : WriteFnConfig :=
  ⟨500, 2000, .RETRY_ALWAYS, false, true, CREATE_IF_NEEDED, fun _ => true⟩

/-- On-transient-only configuration with `_max_batch_size = 1`, so each
record flushes immediately. -/
def cfgBatchOne : WriteFnConfig :=
  ⟨1, 2000, .RETRY_ON_TRANSIENT_ERROR, false, false, CREATE_IF_NEEDED, fun r => r == "t"⟩

/-- A `CREATE_NEVER` configuration. -/
def cfgNeverCreate : WriteFnConfig :=
  ⟨500, 2000, .RETRY_ALWAYS, false, false, CREATE_NEVER, fun _ => true⟩

/-- A service failing permanently on every call, row index 0. -/
def svcPermFail : Nat → Bool × List ErrorEntry :=
  fun _ => (false, [⟨0, "invalid"⟩])

/-- A service whose calls 0 and 2 fail row 0 with a transient reason and
whose other calls succeed. -/
def svcTransientTwice : Nat → Bool × List ErrorEntry :=
  fun n => if n = 0 ∨ n = 2 then (false, [⟨0, "t"⟩]) else (true, [])

/-- A service returning one transient-reason and one permanent-reason row
error on every call. -/
def svcMixed : Nat → Bool × List ErrorEntry :=
  fun _ => (false, [⟨0, "timeout"⟩, ⟨1, "invalid"⟩])

/-- An always-succeeding service. -/
def svcOk : Nat → Bool × List ErrorEntry := fun _ => (true, [])

/-- Two pre-batched input elements totalling three rows. -/
def esBatched : List (Destination × List (Nat × String)) :=
  [("d", [(1, "a"), (2, "b")]), ("e", [(3, "c")])]

/-! ## Claim C1 -/

/-- **C1**: the claim states that after failed rows are kept as the new
remaining set, each remaining record is still paired with its originally
assigned InsertId on the next insert call.  This theorem evaluates
`_flush_batch` at the failing input: a batch of rows 10 and 20 with ids
`"b0"` and `"b1"`, where the first call fails only row 20 (index 1)
transiently.  Because the loop shrinks `rows` to the failed rows but never
re-filters `insert_ids` (bigquery.py:1298-1331), the second insert call
pairs row 20 positionally with id `"b0"` — the id originally assigned to
row 10 — not with its own `"b1"`. -/
theorem C1_insert_id_pairing_diverges_on_retry :
    (flush_batch cfgTransient svcFailSecondOnce 3 stTwoRows "p:d.t").map
        (fun r => r.1.call_log.map (fun c => c.rows.zip c.insert_ids)) =
      some [[(10, some "b0"), (20, some "b1")], [(20, some "b0")]] ∧
    ("b0" : String) ≠ "b1" := by
  constructor
  · decide
  · decide

/-! ## Claim C2 -/

/-- **C2**: under the on-transient-only retry strategy, when the insert
response contains at least one transient-reason row error (in particular
when transient and permanent reasons are mixed), the retry loop continues
and the next insert call carries the entire remaining failed set —
`failedRowsOf rows errors`, which keeps the permanent-error rows; if every
returned reason is permanent, the loop stops without a further call. -/
theorem C2_on_transient_mixed_errors {α ι : Type} (cfg : WriteFnConfig)
    (svc : Nat → Bool × List ErrorEntry) (dest : Destination) (fuel : Nat)
    (rows : List α) (ids : List (Option ι)) (pos : Nat) (log : List (SvcCall α ι))
    (slept : List Nat)
    (hstrat : cfg.retry_strategy = .RETRY_ON_TRANSIENT_ERROR) :
    ((∃ e ∈ (svc log.length).2, cfg.transient e.reason = true) →
       flushLoop cfg svc dest (fuel + 1) rows ids pos log slept =
         flushLoop cfg svc dest fuel (failedRowsOf rows (svc log.length).2) ids (pos + 1)
           (log ++ [⟨dest, rows, ids⟩]) (slept ++ [pos])) ∧
    (∀ (rows2 : List α) (pos2 : Nat) (log2 : List (SvcCall α ι)) (slept2 : List Nat),
       (∃ e ∈ (svc log.length).2, cfg.transient e.reason = true) →
       flushLoop cfg svc dest (fuel + 1) rows ids pos log slept =
         some (rows2, pos2, log2, slept2) →
       log2[log.length + 1]? = some ⟨dest, failedRowsOf rows (svc log.length).2, ids⟩) ∧
    ((∀ e ∈ (svc log.length).2, cfg.transient e.reason = false) →
       flushLoop cfg svc dest (fuel + 1) rows ids pos log slept =
         some (failedRowsOf rows (svc log.length).2, pos, log ++ [⟨dest, rows, ids⟩], slept)) := by
  have key : (∃ e ∈ (svc log.length).2, cfg.transient e.reason = true) →
      flushLoop cfg svc dest (fuel + 1) rows ids pos log slept =
        flushLoop cfg svc dest fuel (failedRowsOf rows (svc log.length).2) ids (pos + 1)
          (log ++ [⟨dest, rows, ids⟩]) (slept ++ [pos]) := by
    rintro ⟨e, he, ht⟩
    simp only [flushLoop]
    rw [if_pos (List.any_eq_true.mpr ⟨e, he, by rw [hstrat]; exact ht⟩)]
  refine ⟨key, ?_, ?_⟩
  · intro rows2 pos2 log2 slept2 hex h
    rw [key hex] at h
    have hl := flushLoop_log cfg svc dest fuel _ ids (pos + 1)
      (log ++ [⟨dest, rows, ids⟩]) (slept ++ [pos]) rows2 pos2 log2 slept2 h
    have h2 := hl.2
    simpa [List.length_append, List.length_singleton] using h2
  · intro hall
    have hcond : ((svc log.length).2.any fun e =>
        RetryStrategy.should_retry cfg.transient cfg.retry_strategy e.reason) = false := by
      rw [List.any_eq_false]
      intro e he
      rw [hstrat]
      simp only [RetryStrategy.should_retry]
      simp [hall e he]
    simp only [flushLoop, hcond, Bool.false_eq_true, if_false]

theorem C2_witness :
    (flushLoop cfgTransient svcMixed "d" 2 ([5, 6] : List Nat)
        [some "i0", some "i1"] 0 [] [] =
      flushLoop cfgTransient svcMixed "d" 1
        (failedRowsOf [5, 6] [⟨0, "timeout"⟩, ⟨1, "invalid"⟩])
        [some "i0", some "i1"] 1 [⟨"d", [5, 6], [some "i0", some "i1"]⟩] [0]) ∧
    (flushLoop cfgTransient svcPermFail "d" 1 ([5, 6] : List Nat)
        [some "i0", some "i1"] 0 [] [] =
      some (failedRowsOf [5, 6] [⟨0, "invalid"⟩], 0,
        [⟨"d", [5, 6], [some "i0", some "i1"]⟩], [])) := by
  have h1 := C2_on_transient_mixed_errors cfgTransient svcMixed "d" 1
    ([5, 6] : List Nat) [some "i0", some "i1"] 0 [] [] rfl
  have h2 := C2_on_transient_mixed_errors cfgTransient svcPermFail "d" 0
    ([5, 6] : List Nat) [some "i0", some "i1"] 0 [] [] rfl
  exact ⟨h1.1 ⟨⟨0, "timeout"⟩, by decide, by decide⟩, h2.2.2 (by decide)⟩

/-! ## Claim C3 -/

/-- **C3, counterexample**: the claim states the shard index is drawn from
the half-open range `[0, S)` with `S = 500`.  But the code draws it with
`random.randint(0, DEFAULT_SHARDS_PER_DESTINATION)`, whose contract is the
closed interval: the draw 500 is possible, and the resulting shard index
500 lies outside `[0, 500)`. -/
theorem C3_counterexample_shard_500 :
    500 ∈ shardDraws ∧
    (add_random_shard (("proj:ds.table" : Destination), (7 : Nat)) 500).1.2 ∉
      Finset.Ico 0 DEFAULT_SHARDS_PER_DESTINATION := by
  constructor
  · simp [shardDraws, DEFAULT_SHARDS_PER_DESTINATION]
  · simp [add_random_shard, DEFAULT_SHARDS_PER_DESTINATION]

/-- **C3, amended**: under fixed sharding the shard index appended to each
element's Destination key is a uniform random integer in the closed range
`[0, S]` (hence `S + 1 = 501` possible shard values with the default
`S = 500`), and the shard index is dropped again by the `DropShard` step
before the element reaches the batch writer. -/
theorem C3_shard_closed_range_and_dropped {β : Type} (element : Destination × β)
    (r : Nat) (hr : r ∈ shardDraws) :
    (add_random_shard element r).1.2 ∈ Finset.Icc 0 DEFAULT_SHARDS_PER_DESTINATION ∧
    (add_random_shard element r).1.2 = r ∧
    dropShard (add_random_shard element r) = element := by
  exact ⟨hr, rfl, rfl⟩

theorem C3_witness :
    ((add_random_shard (("proj:ds.table" : Destination), (7 : Nat)) 250).1.2 ∈
        Finset.Icc 0 DEFAULT_SHARDS_PER_DESTINATION ∧
      (add_random_shard (("proj:ds.table" : Destination), (7 : Nat)) 250).1.2 = 250 ∧
      dropShard (add_random_shard (("proj:ds.table" : Destination), (7 : Nat)) 250) =
        (("proj:ds.table" : Destination), (7 : Nat))) :=
  C3_shard_closed_range_and_dropped (("proj:ds.table" : Destination), (7 : Nat)) 250
    (by simp [shardDraws, DEFAULT_SHARDS_PER_DESTINATION])

/-! ## Claim C4 -/

/-- **C4, counterexample**: the claim states the backoff sequence is
instantiated fresh for each flush loop, so every flush's first retry sleep
is drawn from the start of the sequence (position 0).  In this bundle run
with `_max_batch_size = 1`, each of the two records triggers its own flush
loop and each flush loop sleeps exactly once: the first flush consumes
sequence position 0, but the second flush's first (and only) sleep consumes
position 1 — the iterator created in `start_bundle` carries over between
flush loops, so the second flush does not restart from position 0. -/
theorem C4_counterexample_second_flush_not_fresh :
    (runProcess cfgBatchOne svcTransientTwice 5 (start_bundle (initState Nat String))
        [("d", .single (1, "i0"))]).map (fun r => r.1.slept) = some [0] ∧
    (runProcess cfgBatchOne svcTransientTwice 5 (start_bundle (initState Nat String))
        [("d", .single (1, "i0")), ("d", .single (2, "i1"))]).map (fun r => r.1.slept) =
      some [0, 1] ∧
    (1 : Nat) ≠ 0 := by
  refine ⟨?_, ?_, ?_⟩
  · decide
  · decide
  · decide

/-- **C4, amended**: the fuzzed backoff iterator is instantiated fresh once
per bundle, in `start_bundle` (which resets the consumed position to 0),
and is shared by every flush loop of that bundle: a flush loop entered at
sequence position `pos` consumes the consecutive positions
`pos, pos + 1, …` and leaves the iterator where it stopped, so the first
flush of a bundle starts from the start of the sequence and each later
flush continues from the position left by the earlier flushes. -/
theorem C4_backoff_iterator_per_bundle {α ι : Type} (cfg : WriteFnConfig)
    (svc : Nat → Bool × List ErrorEntry) (dest : Destination) (fuel : Nat)
    (rows : List α) (ids : List (Option ι)) (pos : Nat) (log : List (SvcCall α ι))
    (slept : List Nat) (rows2 : List α) (pos2 : Nat) (log2 : List (SvcCall α ι))
    (slept2 : List Nat)
    (h : flushLoop cfg svc dest fuel rows ids pos log slept = some (rows2, pos2, log2, slept2)) :
    slept2 = slept ++ List.range' pos (pos2 - pos) ∧
    pos ≤ pos2 ∧
    (start_bundle (initState α ι)).backoff_pos = 0 := by
  obtain ⟨h1, h2⟩ :=
    flushLoop_slept cfg svc dest fuel rows ids pos log slept rows2 pos2 log2 slept2 h
  exact ⟨h1, h2, rfl⟩

theorem C4_witness :
    ([0] : List Nat) = [] ++ List.range' 0 (1 - 0) ∧
    (0 : Nat) ≤ 1 ∧
    (start_bundle (initState Nat String)).backoff_pos = 0 :=
  C4_backoff_iterator_per_bundle cfgTransient svcFailSecondOnce "p:d.t" 3
    [10, 20] [some "b0", some "b1"] 0 [] [] [] 1
    [⟨"p:d.t", [10, 20], [some "b0", some "b1"]⟩,
     ⟨"p:d.t", [20], [some "b0", some "b1"]⟩] [0] (by decide)

/-! ## Claim C5 -/

/-- **C5**: on the non-pre-batched path, after each incoming record is
appended, the record's Destination alone is flushed if its batch reached
`_max_batch_size` (default 500, via the `or`-defaulting), else all non-empty
destinations are flushed if the global counter reached `_max_buffered_rows`
(default 2000); consequently, along any successful run from the initial
state the counter — which equals the total number of buffered rows across
all destinations — never exceeds `_max_buffered_rows`. -/
theorem C5_buffered_rows_never_exceed_max {α ι : Type} (cfg : WriteFnConfig)
    (svc : Nat → Bool × List ErrorEntry) (fuel : Nat)
    (hb : cfg.with_batched_input = false)
    (hmax : 0 < cfg.max_buffered_rows) :
    (pyOrNat none DEFAULT_MAX_BATCH_SIZE = 500 ∧
     pyOrNat none DEFAULT_MAX_BUFFERED_ROWS = 2000) ∧
    (∀ (st : WriteFnState α ι) (d : Destination) (r : α × ι),
       process cfg svc fuel st (d, .single r) =
         (let st1 := create_table_if_needed cfg st d
          let buf := bufGet st1.rows_buffer d ++ [r]
          let st2 :=
            { st1 with
                rows_buffer := bufSet st1.rows_buffer d buf,
                total_buffered_rows := st1.total_buffered_rows + 1 }
          if cfg.max_batch_size ≤ buf.length then flush_batch cfg svc fuel st2 d
          else if (cfg.max_buffered_rows : Int) ≤ st2.total_buffered_rows then
            flush_all cfg svc fuel st2
          else some (st2, []))) ∧
    (∀ (es : List (Destination × Payload α ι)) (st2 : WriteFnState α ι)
       (out : List (Destination × α)),
       runProcess cfg svc fuel (start_bundle (initState α ι)) es = some (st2, out) →
       st2.total_buffered_rows ≤ (cfg.max_buffered_rows : Int)) := by
  refine ⟨⟨rfl, rfl⟩, fun st d r => process_single_eq cfg svc fuel st d r hb, ?_⟩
  intro es st2 out h
  have hlt := runProcess_inv cfg svc fuel hb hmax es (start_bundle (initState α ι)) st2 out
    (by simp [start_bundle, initState, keysNodup, bufKeys])
    (by simp [start_bundle, initState, bufTotal])
    (by simpa [start_bundle, initState] using hmax) h
  omega

theorem C5_witness :
    (pyOrNat none DEFAULT_MAX_BATCH_SIZE = 500 ∧
     pyOrNat none DEFAULT_MAX_BUFFERED_ROWS = 2000) ∧
    (start_bundle (initState Nat String)).total_buffered_rows ≤
      (cfgTransient.max_buffered_rows : Int) := by
  have h := @C5_buffered_rows_never_exceed_max Nat String cfgTransient svcOk 3 rfl
    (by decide)
  exact ⟨h.1, h.2.2 [] (start_bundle (initState Nat String)) [] rfl⟩

/-! ## Claim C6 -/

/-- **C6**: under the always-retry strategy, a batch whose rows keep failing
on every insert attempt is retried indefinitely — the retry loop does not
terminate for any amount of fuel, hence `_flush_batch` never returns and no
row of the batch is ever emitted on the dead-letter (`FailedRows`) output —
and the backoff delay sequence it sleeps on is non-decreasing and capped at
1500 seconds. -/
theorem C6_always_retry_never_dead_letters {α ι : Type} (cfg : WriteFnConfig)
    (svc : Nat → Bool × List ErrorEntry) (dest : Destination)
    (hstrat : cfg.retry_strategy = .RETRY_ALWAYS)
    (hfail : ∀ n, (svc n).2 ≠ []) :
    (∀ (fuel : Nat) (st : WriteFnState α ι), flush_batch cfg svc fuel st dest = none) ∧
    (∀ n, backoffBase n ≤ backoffBase (n + 1)) ∧
    (∀ n, backoffBase n ≤ 1500) := by
  refine ⟨?_, ?_, ?_⟩
  · intro fuel st
    simp only [flush_batch, flushLoop_always_none cfg svc dest hstrat hfail]
  · intro n
    unfold backoffBase
    refine min_le_min ?_ le_rfl
    have h2 : (2 : ℚ) ^ n ≤ 2 ^ (n + 1) :=
      pow_le_pow_right₀ (by norm_num) (Nat.le_succ n)
    exact mul_le_mul_of_nonneg_left h2 (by norm_num)
  · intro n
    exact min_le_right _ _

theorem C6_witness :
    flush_batch cfgAlways svcPermFail 7 (initState Nat String) "p:d.t" = none ∧
    backoffBase 3 ≤ backoffBase 4 := by
  have h := @C6_always_retry_never_dead_letters Nat String cfgAlways svcPermFail "p:d.t"
    rfl (fun n => List.cons_ne_nil _ _)
  exact ⟨h.1 7 (initState Nat String), h.2.1 3⟩

/-! ## Claim C7 -/

/-- **C7**: under the never-retry strategy, every flush performs exactly one
insert call — the call log grows by the single call submitting the buffered
rows with their ids — and each row reported as failed by that call is
emitted on the dead-letter output exactly once, paired with its
Destination, with no further insert attempt for it. -/
theorem C7_never_retry_single_call {α ι : Type} (cfg : WriteFnConfig)
    (svc : Nat → Bool × List ErrorEntry) (fuel : Nat) (st : WriteFnState α ι)
    (dest : Destination)
    (hstrat : cfg.retry_strategy = .RETRY_NEVER) :
    flush_batch cfg svc (fuel + 1) st dest =
      (let rows_and_insert_ids := bufGet st.rows_buffer dest
       let rows := rows_and_insert_ids.map Prod.fst
       let insert_ids : List (Option ι) :=
         if cfg.ignore_insert_ids then rows_and_insert_ids.map (fun _ => none)
         else rows_and_insert_ids.map (fun r => some r.2)
       let errors := (svc st.call_log.length).2
       some
         ({ st with
             call_log := st.call_log ++ [⟨dest, rows, insert_ids⟩],
             total_buffered_rows :=
               st.total_buffered_rows - (rows_and_insert_ids.length : Int),
             rows_buffer := bufDel st.rows_buffer dest },
          (failedRowsOf rows errors).map (fun row => (dest, row)))) := by
  have hno : ∀ (errors : List ErrorEntry),
      (errors.any fun e =>
        RetryStrategy.should_retry cfg.transient cfg.retry_strategy e.reason) = false := by
    intro errors
    rw [List.any_eq_false]
    intro e he
    rw [hstrat]
    simp [RetryStrategy.should_retry]
  simp only [flush_batch, flushLoop, hno, Bool.false_eq_true, if_false]

theorem C7_witness :
    flush_batch cfgNever svcPermFail 1 stTwoRows "p:d.t" =
      some
        (⟨[], 0, 0, [],
          [⟨"p:d.t", [10, 20], [some "b0", some "b1"]⟩], [], []⟩,
         [("p:d.t", 10)]) := by
  rw [@C7_never_retry_single_call Nat String cfgNever svcPermFail 0 stTwoRows "p:d.t" rfl]
  decide

/-! ## Claim C8 -/

/-- **C8**: starting a table-existence-cache lifetime (empty call record),
along any sequence of incoming destinations the get-or-create-table call is
issued at most once per destination; a destination whose canonical string
is already in the cache leaves the state untouched (no call); and under
the never-create disposition the call is never issued for any destination. -/
theorem C8_create_at_most_once_per_cache_lifetime {α ι : Type} (cfg : WriteFnConfig)
    (st : WriteFnState α ι) (ds : List Destination)
    (h0 : st.create_calls = []) :
    (∀ d, ((runCreate cfg st ds).create_calls.count d) ≤ 1) ∧
    (∀ d, d ∈ st.known_tables → create_table_if_needed cfg st d = st) ∧
    (cfg.create_disposition = CREATE_NEVER → (runCreate cfg st ds).create_calls = []) := by
  refine ⟨?_, ?_, ?_⟩
  · refine runCreate_inv cfg ds st ?_ ?_
    · intro d hd
      rw [h0] at hd
      simp at hd
    · intro d
      rw [h0]
      simp
  · intro d hd
    unfold create_table_if_needed
    rw [if_pos hd]
  · intro hcd
    rw [runCreate_never cfg hcd ds st, h0]

theorem C8_witness :
    ((runCreate cfgTransient (initState Nat String) ["a", "b", "a"]).create_calls.count "a" ≤ 1) ∧
    (runCreate cfgNeverCreate (initState Nat String) ["a", "b"]).create_calls = [] := by
  have h1 := @C8_create_at_most_once_per_cache_lifetime Nat String cfgTransient
    (initState Nat String) ["a", "b", "a"] rfl
  have h2 := @C8_create_at_most_once_per_cache_lifetime Nat String cfgNeverCreate
    (initState Nat String) ["a", "b"] rfl
  exact ⟨h1.1 "a", h2.2.2 rfl⟩

/-! ## Claim C9 -/

/-- **C9**: configuration errors fail fast before any record is processed:
constructing the write step with a truncate or empty-only write disposition
raises; requesting auto sharding on a bounded (non-streaming) input raises
at pipeline construction; and requesting schema auto-detection when the
method resolves to streaming inserts raises at pipeline construction. -/
theorem C9_config_errors_fail_fast :
    (∀ (α ι : Type) (batch_size max_buffered_rows : Option Nat)
       (create_disposition write_disposition : String)
       (retry_strategy : Option RetryStrategy)
       (ignore_insert_ids with_batched_input : Bool) (transient : String → Bool),
       write_disposition = WRITE_TRUNCATE ∨ write_disposition = WRITE_EMPTY →
       writeFn_init α ι batch_size create_disposition write_disposition
           max_buffered_rows retry_strategy ignore_insert_ids with_batched_input transient =
         .error "Write disposition is not supported for streaming inserts to BigQuery") ∧
    (∀ (method : String) (schema : Option String) (trig : Option Nat) (fmt : String),
       writeToBigQuery_expand method schema false true trig fmt =
         .error "with_auto_sharding is not applicable to batch pipelines.") ∧
    (∀ (method : String) (sharding : Bool) (trig : Option Nat) (fmt : String),
       compute_method method true = STREAMING_INSERTS →
       writeToBigQuery_expand method (some SCHEMA_AUTODETECT) true sharding trig fmt =
         .error "Schema auto-detection is not supported for streaming inserts into BigQuery.") := by
  refine ⟨?_, ?_, ?_⟩
  · intro α ι batch_size max_buffered_rows create_disposition write_disposition
      retry_strategy ignore_insert_ids with_batched_input transient hwd
    rcases hwd with h | h
    · subst h
      unfold writeFn_init
      rw [if_pos (by decide)]
    · subst h
      unfold writeFn_init
      rw [if_pos (by decide)]
  · intro method schema trig fmt
    unfold writeToBigQuery_expand
    rw [if_pos (by simp)]
  · intro method sharding trig fmt hm
    simp [writeToBigQuery_expand, hm]

theorem C9_witness :
    writeFn_init Nat String none CREATE_IF_NEEDED WRITE_TRUNCATE none none false false
        (fun _ => true) =
      .error "Write disposition is not supported for streaming inserts to BigQuery" ∧
    writeToBigQuery_expand METHOD_DEFAULT none false true none "NEWLINE_DELIMITED_JSON" =
      .error "with_auto_sharding is not applicable to batch pipelines." ∧
    writeToBigQuery_expand METHOD_DEFAULT (some SCHEMA_AUTODETECT) true false none
        "NEWLINE_DELIMITED_JSON" =
      .error "Schema auto-detection is not supported for streaming inserts into BigQuery." := by
  refine ⟨?_, ?_, ?_⟩
  · exact C9_config_errors_fail_fast.1 Nat String none none CREATE_IF_NEEDED WRITE_TRUNCATE
      none false false (fun _ => true) (Or.inl rfl)
  · exact C9_config_errors_fail_fast.2.1 METHOD_DEFAULT none none "NEWLINE_DELIMITED_JSON"
  · exact C9_config_errors_fail_fast.2.2 METHOD_DEFAULT false none "NEWLINE_DELIMITED_JSON"
      (by decide)

/-! ## Claim C10 -/

/-- **C10**: on the pre-batched (auto-sharding) input path, `process` never
increments the global buffered-row counter while the immediate flush
decrements it by the batch's length; hence a successful run over batched
input holding `k` rows in total ends with the counter at `-k` — it is not a
count of buffered rows and goes negative. -/
theorem C10_batched_counter_goes_negative {α ι : Type} (cfg : WriteFnConfig)
    (svc : Nat → Bool × List ErrorEntry) (fuel : Nat)
    (es : List (Destination × List (α × ι))) (st2 : WriteFnState α ι)
    (out : List (Destination × α))
    (hb : cfg.with_batched_input = true)
    (h : runProcess cfg svc fuel (start_bundle (initState α ι))
        (es.map fun e => (e.1, Payload.batched e.2)) = some (st2, out)) :
    st2.total_buffered_rows = -((es.map fun e => (e.2.length : Int)).sum) := by
  obtain ⟨-, h2⟩ :=
    runProcess_batched cfg svc fuel hb es (start_bundle (initState α ι)) st2 out rfl h
  rw [h2]
  simp [start_bundle, initState]

theorem C10_witness :
    (⟨[], -3, 0, [],
      [⟨"d", [1, 2], [some "a", some "b"]⟩, ⟨"e", [3], [some "c"]⟩],
      ["d", "e"], ["d", "e"]⟩ : WriteFnState Nat String).total_buffered_rows =
      -((esBatched.map fun e => (e.2.length : Int)).sum) := by
  exact @C10_batched_counter_goes_negative Nat String cfgBatched svcOk 3 esBatched
    (⟨[], -3, 0, [],
      [⟨"d", [1, 2], [some "a", some "b"]⟩, ⟨"e", [3], [some "c"]⟩],
      ["d", "e"], ["d", "e"]⟩ : WriteFnState Nat String) [] rfl (by decide)

end BeamBQ
